import Mathlib

/-!
Verification of the `Recurrent` layer orchestrator of
`src/mlpack/methods/ann/layer/recurrent_impl.hpp`.

The orchestrator is embedded as a state machine.  Matrices are flattened
integer lists (`[]` is armadillo's empty matrix).  The four fundamental
layers (Start, Input, Feedback, Transfer) are external collaborators and
appear as abstract forward/backward/gradient functions collected in
`LayerFns`; their output-parameter, delta and gradient slots live in the
orchestrator state `RState`.  The composite containers `Sequential` and
`AddMerge` and the visitor operations are code of the repository that is
not under `src/`; their behaviour is modelled from the spec where noted.
-/

namespace Mlpack

/-- Matrix entries flattened into a list of integers; the empty list is
armadillo's empty matrix (`is_empty`). -/
abbrev Mat := List Int

/-- Element-wise matrix addition (armadillo `+=` on same-shape operands). -/
def madd (a b : Mat) : Mat := List.zipWith (fun x y => x + y) a b

/-- Armadillo `.zeros()`: keep the shape, set every entry to zero. -/
def zerosLike (m : Mat) : Mat := m.map (fun _ => 0)

/-- Modelled from the spec: a gradient visit accumulates a per-call
contribution into the module's gradient accumulator (spec section 4.4,
gradients for shared weights are summed across the unrolled invocations). -/
def gaccum (g c : Mat) : Mat := if g = [] then c else madd g c

/-- Abstract semantics of the four fundamental layers (external
collaborators dispatched through visitors): forward maps, backward maps
from stored output parameter and upstream error to a delta, and per-call
gradient contributions.  The composite modules Initial and Recurrent-body
also carry abstract unit gradient functions, as the spec describes their
gradient accumulators as units (spec section 4.4). -/
structure LayerFns where
  startF : Mat → Mat
  inputF : Mat → Mat
  feedbackF : Mat → Mat
  transferF : Mat → Mat
  startB : Mat → Mat → Mat
  inputB : Mat → Mat → Mat
  feedbackB : Mat → Mat → Mat
  transferB : Mat → Mat → Mat
  inputG : Mat → Mat → Mat
  feedbackG : Mat → Mat → Mat
  recurrentG : Mat → Mat → Mat
  initialG : Mat → Mat → Mat

/-- Mutable state of one `Recurrent` orchestrator: the counters, flags and
accumulators of `recurrent.hpp`, plus the output-parameter / delta /
gradient slots of the sub-modules read and written through visitors. -/
structure RState where
  rho : Nat
  forwardStep : Nat
  backwardStep : Nat
  gradientStep : Nat
  deterministic : Bool
  recurrentError : Mat
  feedbackOutputParameter : List Mat
  inputOutput : Mat
  startOutput : Mat
  feedbackOutput : Mat
  transferOutput : Mat
  mergeOutput : Mat
  inputDelta : Mat
  startDelta : Mat
  feedbackDelta : Mat
  transferDelta : Mat
  mergeDelta : Mat
  recurrentDelta : Mat
  inputGrad : Mat
  feedbackGrad : Mat
  recurrentGrad : Mat
  initialGrad : Mat

/-- State of a freshly constructed orchestrator with window length `R`:
all counters zero, all matrices empty (value constructor, lines 61-76). -/
def fresh (R : Nat) (det : Bool) : RState :=
  { rho := R, forwardStep := 0, backwardStep := 0, gradientStep := 0,
    deterministic := det, recurrentError := [], feedbackOutputParameter := [],
    inputOutput := [], startOutput := [], feedbackOutput := [],
    transferOutput := [], mergeOutput := [],
    inputDelta := [], startDelta := [], feedbackDelta := [],
    transferDelta := [], mergeDelta := [], recurrentDelta := [],
    inputGrad := [], feedbackGrad := [], recurrentGrad := [],
    initialGrad := [] }

/-- Modelled from the spec: the `Sequential` composite (not under src/)
runs its children in order, storing each child's output parameter; the
Initial module is the Sequential of Input, Start, Transfer (spec
sections 3 and 4.2). -/
def initialForward (L : LayerFns) (s : RState) (input : Mat) : RState :=
  let iOut := L.inputF input
  let sOut := L.startF iOut
  let tOut := L.transferF sOut
  { s with inputOutput := iOut, startOutput := sOut, transferOutput := tOut }

/-- Modelled from the spec: the Recurrent-body (Sequential of Merge and
Transfer, not under src/) recomputes Merge as the element-wise sum of the
Input and Feedback output parameters, then runs Transfer (spec
section 4.2: internally this recomputes Merge of the Input output and the
Feedback output, then Transfer). -/
def recurrentForward (L : LayerFns) (s : RState) : RState :=
  let mOut := madd s.inputOutput s.feedbackOutput
  let tOut := L.transferF mOut
  { s with mergeOutput := mOut, transferOutput := tOut }

/-- Modelled from the spec: backward through the Recurrent-body chains
Transfer backward, then AddMerge, whose element-wise-sum backward passes
the delta through unchanged (spec section 2); each child's delta slot is
stored and the module's own delta is its first child's (Merge's) delta. -/
def recurrentBackward (L : LayerFns) (s : RState) (err : Mat) : RState :=
  let dT := L.transferB s.transferOutput err
  { s with transferDelta := dT, mergeDelta := dT, recurrentDelta := dT }

/-- Modelled from the spec: backward through the Initial module chains
Transfer, Start, Input in reverse order over their stored output
parameters; the propagated delta handed to the caller is Input's delta
(spec section 4.3, else branch). -/
def initialBackward (L : LayerFns) (s : RState) (err : Mat) : RState × Mat :=
  let dT := L.transferB s.transferOutput err
  let dS := L.startB s.startOutput dT
  let dI := L.inputB s.inputOutput dS
  ({ s with transferDelta := dT, startDelta := dS, inputDelta := dI }, dI)

/-- Index `feedbackOutputParameter.size() - 2 - gradientStep` of line 215,
computed in `Int` because the C++ `size_t` subtraction underflows into an
out-of-bounds access whenever the buffer holds fewer than
`gradientStep + 2` elements. -/
def histIndex (s : RState) : Int :=
  (s.feedbackOutputParameter.length : Int) - 2 - (s.gradientStep : Int)

/-- Read of the saved feedback output at `histIndex`; a negative or too
large index is undefined behaviour in the source and modelled as the
empty matrix. -/
def histAccess (s : RState) : Mat :=
  if 0 ≤ histIndex s then s.feedbackOutputParameter.getD (histIndex s).toNat []
  else []

/-- `Recurrent::Forward` (lines 111-153).  Branch on `forwardStep`, copy
Transfer's output parameter into the caller-visible output (line 134),
record the feedback history when training (lines 136-140), advance and
possibly wrap `forwardStep` (lines 142-152). -/
def Forward (L : LayerFns) (s : RState) (input : Mat) : RState × Mat :=
  let s1 :=
    if s.forwardStep = 0 then
      initialForward L s input
    else
      let sA := { s with inputOutput := L.inputF input }
      let sB := { sA with feedbackOutput := L.feedbackF sA.transferOutput }
      recurrentForward L sB
  let output := s1.transferOutput
  let s2 :=
    if s1.deterministic then s1
    else { s1 with
            feedbackOutputParameter := s1.feedbackOutputParameter ++ [output] }
  let s3 :=
    if s2.forwardStep + 1 = s2.rho then
      { s2 with forwardStep := 0, backwardStep := 0,
                recurrentError :=
                  if s2.recurrentError = [] then s2.recurrentError
                  else zerosLike s2.recurrentError }
    else { s2 with forwardStep := s2.forwardStep + 1 }
  (s3, output)

/-- `Recurrent::Backward` (lines 158-196).  Accumulate `gy` into
`recurrentError` (lines 161-168), branch on `backwardStep < rho - 1`
(lines 170-192), then replace `recurrentError` by the Feedback delta slot
and advance `backwardStep` (lines 194-195).  `rho` is positive for every
constructed instance, so the `size_t` subtraction `rho - 1` agrees with
truncated subtraction on `Nat`. -/
def Backward (L : LayerFns) (s : RState) (gy : Mat) : RState × Mat :=
  let s0 := { s with
    recurrentError :=
      if s.recurrentError = [] then gy else madd s.recurrentError gy }
  let p :=
    if s0.backwardStep < s0.rho - 1 then
      let sR := recurrentBackward L s0 s0.recurrentError
      let g := L.inputB sR.inputOutput sR.recurrentDelta
      let sF := { sR with
        feedbackDelta := L.feedbackB sR.feedbackOutput sR.recurrentDelta }
      (sF, g)
    else
      initialBackward L s0 s0.recurrentError
  ({ p.1 with recurrentError := p.1.feedbackDelta,
              backwardStep := p.1.backwardStep + 1 }, p.2)

/-- `Recurrent::Gradient` (lines 201-235).  Branch on
`gradientStep < rho - 1`: accumulate Recurrent-body, Input and Feedback
gradients (Feedback against the saved historical output, lines 206-218),
or zero those accumulators and accumulate only Initial's gradient
(lines 219-227); then advance and possibly wrap `gradientStep`, clearing
the history buffer (lines 229-234). -/
def Gradient (L : LayerFns) (s : RState) (input error : Mat) : RState :=
  let s1 :=
    if s.gradientStep < s.rho - 1 then
      let sR := { s with
        recurrentGrad := gaccum s.recurrentGrad (L.recurrentG input error) }
      let sI := { sR with
        inputGrad := gaccum sR.inputGrad (L.inputG input sR.mergeDelta) }
      { sI with
        feedbackGrad :=
          gaccum sI.feedbackGrad (L.feedbackG (histAccess sI) sI.mergeDelta) }
    else
      let sZ := { s with
        recurrentGrad := zerosLike s.recurrentGrad,
        inputGrad := zerosLike s.inputGrad,
        feedbackGrad := zerosLike s.feedbackGrad }
      { sZ with
        initialGrad := gaccum sZ.initialGrad (L.initialG input sZ.startDelta) }
  if s1.gradientStep + 1 = s1.rho then
    { s1 with gradientStep := 0, feedbackOutputParameter := [] }
  else
    { s1 with gradientStep := s1.gradientStep + 1 }

/-- References to the sub-modules of one `Recurrent` instance. -/
inductive ModuleRef where
  | start | input | feedback | transfer | initial | merge | recurrentBody
deriving DecidableEq

/-- One wiring action of the construction algorithm: allocation of a
composite, `AddVisitor`, `WeightSizeVisitor`, or a push onto the flat
network list. -/
inductive BuildStep where
  | newSeqDefault (target : ModuleRef)
  | newAddMerge (target : ModuleRef) (modelArg runArg : Bool)
  | newSeq (target : ModuleRef) (modelArg : Bool)
  | addChild (child target : ModuleRef)
  | weightSize (m : ModuleRef)
  | pushNetwork (m : ModuleRef)
deriving DecidableEq

/-- Wiring actions performed by the value constructor, lines 78-105, in
source order. -/
def constructorWiring : List BuildStep :=
  [ .newSeqDefault .initial,
    .newAddMerge .merge false false,
    .newSeq .recurrentBody false,
    .addChild .input .initial,
    .addChild .start .initial,
    .addChild .transfer .initial,
    .weightSize .start,
    .weightSize .input,
    .weightSize .feedback,
    .weightSize .transfer,
    .addChild .input .merge,
    .addChild .feedback .merge,
    .addChild .merge .recurrentBody,
    .addChild .transfer .recurrentBody,
    .pushNetwork .initial,
    .pushNetwork .merge,
    .pushNetwork .feedback,
    .pushNetwork .recurrentBody ]

/-- Wiring actions performed on the loading path of `serialize`,
lines 263-291, in source order. -/
def serializeLoadWiring : List BuildStep :=
  [ .newSeqDefault .initial,
    .newAddMerge .merge false false,
    .newSeq .recurrentBody false,
    .addChild .input .initial,
    .addChild .start .initial,
    .addChild .transfer .initial,
    .weightSize .start,
    .weightSize .input,
    .weightSize .feedback,
    .weightSize .transfer,
    .addChild .input .merge,
    .addChild .feedback .merge,
    .addChild .merge .recurrentBody,
    .addChild .transfer .recurrentBody,
    .pushNetwork .initial,
    .pushNetwork .merge,
    .pushNetwork .feedback,
    .pushNetwork .recurrentBody ]

/-- Structural result of a wiring run: the children of each composite in
order, the flat network list, and the layers whose weight-size pass ran,
in order. -/
structure Wiring where
  initialChildren : List ModuleRef
  mergeChildren : List ModuleRef
  recurrentChildren : List ModuleRef
  network : List ModuleRef
  sized : List ModuleRef
deriving DecidableEq

/-- The empty wiring, before any construction step. -/
def Wiring.empty : Wiring :=
  { initialChildren := [], mergeChildren := [], recurrentChildren := [],
    network := [], sized := [] }

/-- Effect of one wiring action on the wiring structure. -/
def applyBuild (w : Wiring) : BuildStep → Wiring
  | .newSeqDefault .initial => { w with initialChildren := [] }
  | .newAddMerge .merge _ _ => { w with mergeChildren := [] }
  | .newSeq .recurrentBody _ => { w with recurrentChildren := [] }
  | .newSeqDefault _ | .newAddMerge _ _ _ | .newSeq _ _ => w
  | .addChild c .initial => { w with initialChildren := w.initialChildren ++ [c] }
  | .addChild c .merge => { w with mergeChildren := w.mergeChildren ++ [c] }
  | .addChild c .recurrentBody =>
      { w with recurrentChildren := w.recurrentChildren ++ [c] }
  | .addChild _ _ => w
  | .weightSize m => { w with sized := w.sized ++ [m] }
  | .pushNetwork m => { w with network := w.network ++ [m] }

/-- Structure produced by running a list of wiring actions from scratch. -/
def buildResult (steps : List BuildStep) : Wiring :=
  steps.foldl applyBuild Wiring.empty

/-- One Forward call folded into the state (result matrix dropped). -/
def fwdState (L : LayerFns) (s : RState) (x : Mat) : RState := (Forward L s x).1

/-- One Backward call folded into the state (result matrix dropped). -/
def bwdState (L : LayerFns) (s : RState) (gy : Mat) : RState := (Backward L s gy).1

/-- A sequence of Forward calls on the given inputs, in order. -/
def forwards (L : LayerFns) (s : RState) (xs : List Mat) : RState :=
  xs.foldl (fwdState L) s

/-- A sequence of Backward calls on the given incoming gradients. -/
def backwards (L : LayerFns) (s : RState) (gys : List Mat) : RState :=
  gys.foldl (bwdState L) s

/-- A sequence of Gradient calls on the given input/error pairs. -/
def gradients (L : LayerFns) (s : RState) (ies : List (Mat × Mat)) : RState :=
  ies.foldl (fun t ie => Gradient L t ie.1 ie.2) s

/-- Call data of one window of the documented pattern: the forward
inputs, then the backward incoming gradients, then the gradient
input/error pairs. -/
structure WindowData where
  xs : List Mat
  gys : List Mat
  ies : List (Mat × Mat)

/-- A complete window for window length `R`: `R` Forward calls, then `R`
Backward calls, then `R` Gradient calls. -/
def WindowData.complete (R : Nat) (w : WindowData) : Prop :=
  w.xs.length = R ∧ w.gys.length = R ∧ w.ies.length = R

/-- An initial portion of a window: some of its Forward calls, or all
Forward and some Backward calls, or all Forward and Backward calls and
some Gradient calls. -/
def WindowData.opening (R : Nat) (w : WindowData) : Prop :=
  (w.xs.length ≤ R ∧ w.gys = [] ∧ w.ies = []) ∨
  (w.xs.length = R ∧ w.gys.length ≤ R ∧ w.ies = []) ∨
  (w.xs.length = R ∧ w.gys.length = R ∧ w.ies.length ≤ R)

/-- Execution of one window's calls: forwards, then backwards, then
gradients. -/
def runWindow (L : LayerFns) (s : RState) (w : WindowData) : RState :=
  gradients L (backwards L (forwards L s w.xs) w.gys) w.ies

/-- Execution of a list of windows in order. -/
def runWindows (L : LayerFns) (s : RState) (ws : List WindowData) : RState :=
  ws.foldl (runWindow L) s

/-- States reachable from a freshly constructed orchestrator by the
documented call pattern: some complete windows followed by an initial
portion of a further window. -/
def Reach (L : LayerFns) (R : Nat) (det : Bool) (s : RState) : Prop :=
  ∃ ws w, (∀ u ∈ ws, WindowData.complete R u) ∧ WindowData.opening R w ∧
    s = runWindow L (runWindows L (fresh R det) ws) w

/-- Concrete instantiation of the abstract layer functions, used to
evaluate the model on concrete inputs. -/
def idLayerFns : LayerFns :=
  { startF := fun m => m, inputF := fun m => m,
    feedbackF := fun m => m, transferF := fun m => m,
    startB := fun _ e => e, inputB := fun _ e => e,
    feedbackB := fun _ e => e, transferB := fun _ e => e,
    inputG := fun a b => madd a b, feedbackG := fun a b => madd a b,
    recurrentG := fun a b => madd a b, initialG := fun a b => madd a b }

lemma fwdState_proj (L : LayerFns) (s : RState) (x : Mat) :
    (fwdState L s x).rho = s.rho ∧
    (fwdState L s x).deterministic = s.deterministic ∧
    (fwdState L s x).gradientStep = s.gradientStep ∧
    (fwdState L s x).forwardStep
      = (if s.forwardStep + 1 = s.rho then 0 else s.forwardStep + 1) ∧
    (fwdState L s x).backwardStep
      = (if s.forwardStep + 1 = s.rho then 0 else s.backwardStep) ∧
    (fwdState L s x).recurrentError
      = (if s.forwardStep + 1 = s.rho then
           (if s.recurrentError = [] then s.recurrentError
            else zerosLike s.recurrentError)
         else s.recurrentError) ∧
    (fwdState L s x).feedbackOutputParameter.length
      = (if s.deterministic then s.feedbackOutputParameter.length
         else s.feedbackOutputParameter.length + 1) := by
  unfold fwdState Forward initialForward recurrentForward
  by_cases h0 : s.forwardStep = 0 <;> by_cases hd : s.deterministic <;>
    by_cases hw : s.forwardStep + 1 = s.rho <;>
    simp_all

lemma bwdState_proj (L : LayerFns) (s : RState) (gy : Mat) :
    (bwdState L s gy).rho = s.rho ∧
    (bwdState L s gy).deterministic = s.deterministic ∧
    (bwdState L s gy).gradientStep = s.gradientStep ∧
    (bwdState L s gy).forwardStep = s.forwardStep ∧
    (bwdState L s gy).backwardStep = s.backwardStep + 1 ∧
    (bwdState L s gy).feedbackOutputParameter = s.feedbackOutputParameter := by
  unfold bwdState Backward recurrentBackward initialBackward
  by_cases hb : s.backwardStep < s.rho - 1 <;> simp [hb]

lemma Gradient_proj (L : LayerFns) (s : RState) (i e : Mat) :
    (Gradient L s i e).rho = s.rho ∧
    (Gradient L s i e).deterministic = s.deterministic ∧
    (Gradient L s i e).forwardStep = s.forwardStep ∧
    (Gradient L s i e).backwardStep = s.backwardStep ∧
    (Gradient L s i e).gradientStep
      = (if s.gradientStep + 1 = s.rho then 0 else s.gradientStep + 1) ∧
    (Gradient L s i e).feedbackOutputParameter
      = (if s.gradientStep + 1 = s.rho then []
         else s.feedbackOutputParameter) := by
  unfold Gradient
  by_cases hg : s.gradientStep < s.rho - 1 <;>
    by_cases hw : s.gradientStep + 1 = s.rho <;>
    simp [hg, hw]

lemma zerosLike_all_zero (m : Mat) : ∀ v ∈ zerosLike m, v = 0 := by
  simp [zerosLike]

lemma forwards_no_wrap (L : LayerFns) (xs : List Mat) :
    ∀ s : RState, s.forwardStep + xs.length < s.rho →
    (forwards L s xs).rho = s.rho ∧
    (forwards L s xs).deterministic = s.deterministic ∧
    (forwards L s xs).gradientStep = s.gradientStep ∧
    (forwards L s xs).forwardStep = s.forwardStep + xs.length ∧
    (forwards L s xs).backwardStep = s.backwardStep ∧
    (forwards L s xs).recurrentError = s.recurrentError ∧
    (forwards L s xs).feedbackOutputParameter.length
      = (if s.deterministic then s.feedbackOutputParameter.length
         else s.feedbackOutputParameter.length + xs.length) := by
  induction xs with
  | nil =>
    intro s h
    by_cases hd : s.deterministic <;> simp [forwards, hd]
  | cons x xs ih =>
    intro s h
    obtain ⟨p1, p2, p3, p4, p5, p6, p7⟩ := fwdState_proj L s x
    have hw : ¬ (s.forwardStep + 1 = s.rho) := by
      simp at h; omega
    rw [if_neg hw] at p4 p5 p6
    have hfold : forwards L s (x :: xs) = forwards L (fwdState L s x) xs := rfl
    have hlt : (fwdState L s x).forwardStep + xs.length < (fwdState L s x).rho := by
      rw [p4, p1]; simp at h; omega
    obtain ⟨q1, q2, q3, q4, q5, q6, q7⟩ := ih (fwdState L s x) hlt
    rw [hfold]
    refine ⟨by rw [q1, p1], by rw [q2, p2], by rw [q3, p3], ?_, ?_, ?_, ?_⟩
    · rw [q4, p4]; simp; omega
    · rw [q5, p5]
    · rw [q6, p6]
    · rw [q7, p7, p2]
      by_cases hd : s.deterministic <;> simp [hd] <;> omega

lemma forwards_wrap (L : LayerFns) (xs : List Mat) :
    ∀ s : RState, 0 < xs.length → s.forwardStep + xs.length = s.rho →
    (forwards L s xs).rho = s.rho ∧
    (forwards L s xs).deterministic = s.deterministic ∧
    (forwards L s xs).gradientStep = s.gradientStep ∧
    (forwards L s xs).forwardStep = 0 ∧
    (forwards L s xs).backwardStep = 0 ∧
    (∀ v ∈ (forwards L s xs).recurrentError, v = 0) ∧
    (forwards L s xs).feedbackOutputParameter.length
      = (if s.deterministic then s.feedbackOutputParameter.length
         else s.feedbackOutputParameter.length + xs.length) := by
  induction xs with
  | nil => intro s h0 _; simp at h0
  | cons x xs ih =>
    intro s _ h
    obtain ⟨p1, p2, p3, p4, p5, p6, p7⟩ := fwdState_proj L s x
    have hfold : forwards L s (x :: xs) = forwards L (fwdState L s x) xs := rfl
    by_cases hnil : xs = []
    · subst hnil
      have hw : s.forwardStep + 1 = s.rho := by simp at h; omega
      rw [if_pos hw] at p4 p5 p6
      rw [hfold]
      refine ⟨p1, p2, p3, p4, p5, ?_, ?_⟩
      · show ∀ v ∈ (fwdState L s x).recurrentError, v = 0
        rw [p6]
        by_cases he : s.recurrentError = []
        · simp [he]
        · rw [if_neg he]; exact zerosLike_all_zero _
      · show (fwdState L s x).feedbackOutputParameter.length = _
        rw [p7]
        by_cases hd : s.deterministic <;> simp [hd]
    · have hpos : 0 < xs.length := List.length_pos.mpr hnil
      have hw : ¬ (s.forwardStep + 1 = s.rho) := by
        simp at h; omega
      rw [if_neg hw] at p4 p5 p6
      have hlen : (fwdState L s x).forwardStep + xs.length = (fwdState L s x).rho := by
        rw [p4, p1]; simp at h; omega
      obtain ⟨q1, q2, q3, q4, q5, q6, q7⟩ := ih (fwdState L s x) hpos hlen
      rw [hfold]
      refine ⟨by rw [q1, p1], by rw [q2, p2], by rw [q3, p3], q4, q5, q6, ?_⟩
      rw [q7, p7, p2]
      by_cases hd : s.deterministic <;> simp [hd] <;> omega

lemma backwards_phase (L : LayerFns) (gys : List Mat) :
    ∀ s : RState,
    (backwards L s gys).rho = s.rho ∧
    (backwards L s gys).deterministic = s.deterministic ∧
    (backwards L s gys).forwardStep = s.forwardStep ∧
    (backwards L s gys).gradientStep = s.gradientStep ∧
    (backwards L s gys).backwardStep = s.backwardStep + gys.length ∧
    (backwards L s gys).feedbackOutputParameter = s.feedbackOutputParameter := by
  induction gys with
  | nil => intro s; simp [backwards]
  | cons gy gys ih =>
    intro s
    obtain ⟨p1, p2, p3, p4, p5, p6⟩ := bwdState_proj L s gy
    have hfold : backwards L s (gy :: gys) = backwards L (bwdState L s gy) gys := rfl
    obtain ⟨q1, q2, q3, q4, q5, q6⟩ := ih (bwdState L s gy)
    rw [hfold]
    refine ⟨by rw [q1, p1], by rw [q2, p2], by rw [q3, p4], by rw [q4, p3],
      ?_, by rw [q6, p6]⟩
    rw [q5, p5]; simp; omega

lemma gradients_no_wrap (L : LayerFns) (ies : List (Mat × Mat)) :
    ∀ s : RState, s.gradientStep + ies.length < s.rho →
    (gradients L s ies).rho = s.rho ∧
    (gradients L s ies).deterministic = s.deterministic ∧
    (gradients L s ies).forwardStep = s.forwardStep ∧
    (gradients L s ies).backwardStep = s.backwardStep ∧
    (gradients L s ies).gradientStep = s.gradientStep + ies.length ∧
    (gradients L s ies).feedbackOutputParameter = s.feedbackOutputParameter := by
  induction ies with
  | nil => intro s _; simp [gradients]
  | cons ie ies ih =>
    intro s h
    obtain ⟨p1, p2, p3, p4, p5, p6⟩ := Gradient_proj L s ie.1 ie.2
    have hw : ¬ (s.gradientStep + 1 = s.rho) := by
      simp at h; omega
    rw [if_neg hw] at p5 p6
    have hfold : gradients L s (ie :: ies)
        = gradients L (Gradient L s ie.1 ie.2) ies := rfl
    have hlt : (Gradient L s ie.1 ie.2).gradientStep + ies.length
        < (Gradient L s ie.1 ie.2).rho := by
      rw [p5, p1]; simp at h; omega
    obtain ⟨q1, q2, q3, q4, q5, q6⟩ := ih (Gradient L s ie.1 ie.2) hlt
    rw [hfold]
    refine ⟨by rw [q1, p1], by rw [q2, p2], by rw [q3, p3], by rw [q4, p4],
      ?_, by rw [q6, p6]⟩
    rw [q5, p5]; simp; omega

lemma gradients_wrap (L : LayerFns) (ies : List (Mat × Mat)) :
    ∀ s : RState, 0 < ies.length → s.gradientStep + ies.length = s.rho →
    (gradients L s ies).rho = s.rho ∧
    (gradients L s ies).deterministic = s.deterministic ∧
    (gradients L s ies).forwardStep = s.forwardStep ∧
    (gradients L s ies).backwardStep = s.backwardStep ∧
    (gradients L s ies).gradientStep = 0 ∧
    (gradients L s ies).feedbackOutputParameter = [] := by
  induction ies with
  | nil => intro s h0 _; simp at h0
  | cons ie ies ih =>
    intro s _ h
    obtain ⟨p1, p2, p3, p4, p5, p6⟩ := Gradient_proj L s ie.1 ie.2
    have hfold : gradients L s (ie :: ies)
        = gradients L (Gradient L s ie.1 ie.2) ies := rfl
    by_cases hnil : ies = []
    · subst hnil
      have hw : s.gradientStep + 1 = s.rho := by simp at h; omega
      rw [if_pos hw] at p5 p6
      rw [hfold]
      exact ⟨p1, p2, p3, p4, p5, p6⟩
    · have hpos : 0 < ies.length := List.length_pos.mpr hnil
      have hw : ¬ (s.gradientStep + 1 = s.rho) := by
        simp at h; omega
      rw [if_neg hw] at p5 p6
      have hlen : (Gradient L s ie.1 ie.2).gradientStep + ies.length
          = (Gradient L s ie.1 ie.2).rho := by
        rw [p5, p1]; simp at h; omega
      obtain ⟨q1, q2, q3, q4, q5, q6⟩ := ih (Gradient L s ie.1 ie.2) hpos hlen
      rw [hfold]
      exact ⟨by rw [q1, p1], by rw [q2, p2], by rw [q3, p3], by rw [q4, p4],
        q5, q6⟩

lemma runWindow_complete_state (L : LayerFns) (R : Nat) (w : WindowData)
    (s : RState) (hw : WindowData.complete R w) (hR : 0 < R)
    (hrho : s.rho = R) (hf : s.forwardStep = 0) (hg : s.gradientStep = 0) :
    (runWindow L s w).rho = R ∧
    (runWindow L s w).deterministic = s.deterministic ∧
    (runWindow L s w).forwardStep = 0 ∧
    (runWindow L s w).gradientStep = 0 ∧
    (runWindow L s w).backwardStep = R ∧
    (runWindow L s w).feedbackOutputParameter = [] := by
  obtain ⟨hx, hy, hi⟩ := hw
  have hxpos : 0 < w.xs.length := by omega
  have hxsum : s.forwardStep + w.xs.length = s.rho := by omega
  obtain ⟨f1, f2, f3, f4, f5, _, _⟩ := forwards_wrap L w.xs s hxpos hxsum
  set s1 := forwards L s w.xs with hs1
  obtain ⟨b1, b2, b3, b4, b5, b6⟩ := backwards_phase L w.gys s1
  set s2 := backwards L s1 w.gys with hs2
  have hgpos : 0 < w.ies.length := by omega
  have hgsum : s2.gradientStep + w.ies.length = s2.rho := by
    rw [b4, f3, hg, b1, f1, hrho, hi]; omega
  obtain ⟨g1, g2, g3, g4, g5, g6⟩ := gradients_wrap L w.ies s2 hgpos hgsum
  have hrun : runWindow L s w = gradients L s2 w.ies := rfl
  rw [hrun]
  refine ⟨by rw [g1, b1, f1, hrho], by rw [g2, b2, f2],
    by rw [g3, b3, f4], g5, ?_, g6⟩
  rw [g4, b5, f5, hy]; omega

lemma runWindows_inv (L : LayerFns) (R : Nat) (ws : List WindowData) :
    ∀ s : RState, (∀ u ∈ ws, WindowData.complete R u) → 0 < R →
    s.rho = R → s.forwardStep = 0 → s.gradientStep = 0 →
    s.backwardStep ≤ R → s.feedbackOutputParameter = [] →
    (runWindows L s ws).rho = R ∧
    (runWindows L s ws).deterministic = s.deterministic ∧
    (runWindows L s ws).forwardStep = 0 ∧
    (runWindows L s ws).gradientStep = 0 ∧
    (runWindows L s ws).backwardStep ≤ R ∧
    (runWindows L s ws).feedbackOutputParameter = [] := by
  induction ws with
  | nil =>
    intro s _ _ h1 h2 h3 h4 h5
    exact ⟨h1, rfl, h2, h3, h4, h5⟩
  | cons w ws ih =>
    intro s hall hR h1 h2 h3 h4 h5
    have hw : WindowData.complete R w := hall w (by simp)
    obtain ⟨c1, c2, c3, c4, c5, c6⟩ :=
      runWindow_complete_state L R w s hw hR h1 h2 h3
    have hfold : runWindows L s (w :: ws) = runWindows L (runWindow L s w) ws := rfl
    have hall' : ∀ u ∈ ws, WindowData.complete R u := by
      intro u hu; exact hall u (by simp [hu])
    obtain ⟨d1, d2, d3, d4, d5, d6⟩ :=
      ih (runWindow L s w) hall' hR c1 c3 c4 (le_of_eq c5) c6
    rw [hfold]
    exact ⟨d1, by rw [d2, c2], d3, d4, d5, d6⟩

/-- C2: for an orchestrator with `rho = R > 0` whose `forwardStep` is 0,
after exactly `R` Forward calls both `forwardStep` and `backwardStep` are 0
and every entry of `recurrentError` is zero, and after any smaller number
of Forward calls no reset has fired: `forwardStep` counts the calls and
`backwardStep` and `recurrentError` are untouched, so the window reset
fires exactly once, at the `R`-th call. -/
theorem forward_window_reset (L : LayerFns) (s : RState) (R : Nat)
    (xs : List Mat) (hR : 0 < R) (hrho : s.rho = R) (hf : s.forwardStep = 0)
    (hlen : xs.length ≤ R) :
    (xs.length = R →
      (forwards L s xs).forwardStep = 0 ∧
      (forwards L s xs).backwardStep = 0 ∧
      (∀ v ∈ (forwards L s xs).recurrentError, v = 0)) ∧
    (xs.length < R →
      (forwards L s xs).forwardStep = xs.length ∧
      (forwards L s xs).backwardStep = s.backwardStep ∧
      (forwards L s xs).recurrentError = s.recurrentError) := by
  constructor
  · intro hEq
    have hpos : 0 < xs.length := by omega
    have hsum : s.forwardStep + xs.length = s.rho := by omega
    obtain ⟨_, _, _, f4, f5, f6, _⟩ := forwards_wrap L xs s hpos hsum
    exact ⟨f4, f5, f6⟩
  · intro hLt
    have h : s.forwardStep + xs.length < s.rho := by omega
    obtain ⟨_, _, _, f4, f5, f6, _⟩ := forwards_no_wrap L xs s h
    exact ⟨by rw [f4, hf]; omega, f5, f6⟩

theorem forward_window_reset_witness :
    (([[1], [2]] : List Mat).length = 2 →
      (forwards idLayerFns (fresh 2 false) [[1], [2]]).forwardStep = 0 ∧
      (forwards idLayerFns (fresh 2 false) [[1], [2]]).backwardStep = 0 ∧
      (∀ v ∈ (forwards idLayerFns (fresh 2 false) [[1], [2]]).recurrentError,
        v = 0)) ∧
    (([[1], [2]] : List Mat).length < 2 →
      (forwards idLayerFns (fresh 2 false) [[1], [2]]).forwardStep
        = ([[1], [2]] : List Mat).length ∧
      (forwards idLayerFns (fresh 2 false) [[1], [2]]).backwardStep
        = (fresh 2 false).backwardStep ∧
      (forwards idLayerFns (fresh 2 false) [[1], [2]]).recurrentError
        = (fresh 2 false).recurrentError) :=
  forward_window_reset idLayerFns (fresh 2 false) 2 [[1], [2]]
    (by decide) rfl rfl (by decide)

/-- C3 (amended): in every state reachable by the documented call pattern
from a fresh orchestrator with `rho = R > 0`, `forwardStep < R` and
`gradientStep < R`; `backwardStep` however is only bounded by `R`
inclusively: it reaches `R` after a window's last Backward call and is put
back to 0 only by the `R`-th Forward call of the next window. -/
theorem counters_bounded (L : LayerFns) (R : Nat) (det : Bool) (s : RState)
    (hR : 0 < R) (hreach : Reach L R det s) :
    s.forwardStep < R ∧ s.gradientStep < R ∧ s.backwardStep ≤ R := by
  obtain ⟨ws, w, hws, hop, rfl⟩ := hreach
  obtain ⟨m1, m2, m3, m4, m5, m6⟩ :=
    runWindows_inv L R ws (fresh R det) hws hR rfl rfl rfl (Nat.zero_le R) rfl
  set base := runWindows L (fresh R det) ws with hbase
  rcases hop with ⟨hx, hg0, hi0⟩ | ⟨hx, hg, hi0⟩ | ⟨hx, hg, hi⟩
  · have hrun : runWindow L base w = forwards L base w.xs := by
      simp [runWindow, hg0, hi0, backwards, gradients]
    rw [hrun]
    by_cases hfull : w.xs.length = R
    · have hpos : 0 < w.xs.length := by omega
      have hsum : base.forwardStep + w.xs.length = base.rho := by
        rw [m3, m1]; omega
      obtain ⟨_, _, f3, f4, f5, _, _⟩ := forwards_wrap L w.xs base hpos hsum
      exact ⟨by omega, by rw [f3, m4]; omega, by omega⟩
    · have h : base.forwardStep + w.xs.length < base.rho := by
        rw [m3, m1]; omega
      obtain ⟨_, _, f3, f4, f5, _, _⟩ := forwards_no_wrap L w.xs base h
      refine ⟨by rw [f4, m3]; omega, by rw [f3, m4]; omega, by rw [f5]; exact m5⟩
  · have hrun : runWindow L base w
        = backwards L (forwards L base w.xs) w.gys := by
      simp [runWindow, hi0, gradients]
    rw [hrun]
    have hpos : 0 < w.xs.length := by omega
    have hsum : base.forwardStep + w.xs.length = base.rho := by
      rw [m3, m1]; omega
    obtain ⟨f1, _, f3, f4, f5, _, _⟩ := forwards_wrap L w.xs base hpos hsum
    obtain ⟨_, _, b3, b4, b5, _⟩ := backwards_phase L w.gys (forwards L base w.xs)
    refine ⟨by rw [b3, f4]; omega, by rw [b4, f3, m4]; omega, ?_⟩
    rw [b5, f5]; omega
  · have hrun : runWindow L base w
        = gradients L (backwards L (forwards L base w.xs) w.gys) w.ies := rfl
    rw [hrun]
    have hpos : 0 < w.xs.length := by omega
    have hsum : base.forwardStep + w.xs.length = base.rho := by
      rw [m3, m1]; omega
    obtain ⟨f1, _, f3, f4, f5, _, _⟩ := forwards_wrap L w.xs base hpos hsum
    obtain ⟨b1, _, b3, b4, b5, _⟩ := backwards_phase L w.gys (forwards L base w.xs)
    set s2 := backwards L (forwards L base w.xs) w.gys with hs2
    by_cases hfull : w.ies.length = R
    · have hgpos : 0 < w.ies.length := by omega
      have hgsum : s2.gradientStep + w.ies.length = s2.rho := by
        rw [b4, f3, m4, b1, f1, m1]; omega
      obtain ⟨_, _, g3, g4, g5, _⟩ := gradients_wrap L w.ies s2 hgpos hgsum
      refine ⟨by rw [g3, b3, f4]; omega, by rw [g5]; omega, ?_⟩
      rw [g4, b5, f5, hg]; omega
    · have h : s2.gradientStep + w.ies.length < s2.rho := by
        rw [b4, f3, m4, b1, f1, m1]; omega
      obtain ⟨_, _, g3, g4, g5, _⟩ := gradients_no_wrap L w.ies s2 h
      refine ⟨by rw [g3, b3, f4]; omega, ?_, ?_⟩
      · rw [g5, b4, f3, m4]; omega
      · rw [g4, b5, f5, hg]; omega

/-- Call data of one complete window for `rho = 2`, used to evaluate the
amended bound at a concrete reachable state. -/
def cbWindow : WindowData :=
  { xs := [[1], [2]], gys := [[1], [1]], ies := [([1], [1]), ([2], [1])] }

/-- State after one complete `rho = 2` window from a fresh orchestrator. -/
def cbState : RState := runWindow idLayerFns (fresh 2 false) cbWindow

theorem counters_bounded_witness :
    cbState.forwardStep < 2 ∧ cbState.gradientStep < 2 ∧
    cbState.backwardStep ≤ 2 :=
  counters_bounded idLayerFns 2 false cbState (by decide)
    ⟨[], cbWindow, by intro u hu; simp at hu,
      Or.inr (Or.inr ⟨rfl, rfl, by decide⟩), rfl⟩

/-- Call data reaching a state that violates C3 as stated: one complete
forward phase and one complete backward phase with `rho = 1`. -/
def cexWindow : WindowData := { xs := [[0]], gys := [[0]], ies := [] }

/-- State after Forward then Backward on a fresh `rho = 1` orchestrator:
its `backwardStep` equals 1 = rho. -/
def cexState : RState := runWindow idLayerFns (fresh 1 false) cexWindow

/-- C3 counterexample: the state reached from a fresh `rho = 1`
orchestrator by the documented pattern's first Forward call followed by
its first Backward call has `backwardStep = 1`, which is not strictly
less than `rho = 1`; the claim that all three counters stay strictly
below `rho` in every reachable state is false. -/
theorem counters_cex :
    Reach idLayerFns 1 false cexState ∧ cexState.rho = 1 ∧
    cexState.backwardStep = 1 ∧
    ¬ (cexState.forwardStep < cexState.rho ∧
       cexState.gradientStep < cexState.rho ∧
       cexState.backwardStep < cexState.rho) := by
  refine ⟨⟨[], cexWindow, by intro u hu; simp at hu,
    Or.inr (Or.inl ⟨rfl, by decide, rfl⟩), rfl⟩, by decide, by decide, by decide⟩

/-- C1: every Forward call with `forwardStep = 0` evaluates the Initial
module (Input, then Start, then Transfer) on the input, and every other
Forward call runs Input on the input, Feedback on the previous Transfer
output, and the Recurrent-body (Merge of the two, then Transfer); in both
branches the caller-visible output is Transfer's current output
parameter. -/
theorem forward_branch_semantics (L : LayerFns) (s : RState) (input : Mat) :
    (Forward L s input).2 = (Forward L s input).1.transferOutput ∧
    (Forward L s input).2 =
      (if s.forwardStep = 0 then
         L.transferF (L.startF (L.inputF input))
       else
         L.transferF (madd (L.inputF input) (L.feedbackF s.transferOutput))) ∧
    (Forward L s input).1.inputOutput = L.inputF input ∧
    (Forward L s input).1.feedbackOutput =
      (if s.forwardStep = 0 then s.feedbackOutput
       else L.feedbackF s.transferOutput) ∧
    (Forward L s input).1.mergeOutput =
      (if s.forwardStep = 0 then s.mergeOutput
       else madd (L.inputF input) (L.feedbackF s.transferOutput)) := by
  unfold Forward initialForward recurrentForward
  by_cases h0 : s.forwardStep = 0 <;> by_cases hd : s.deterministic <;>
    by_cases hw : s.forwardStep + 1 = s.rho <;> simp_all

/-- C4: every Backward call with `backwardStep < rho - 1` propagates the
accumulated error backward through the Recurrent-body (its delta being
Transfer's backward result), feeds that delta through Input to produce
`g`, and independently through Feedback; otherwise it propagates through
the Initial module (Transfer, Start, Input in reverse) and `g` is that
propagated delta. -/
theorem backward_branch_semantics (L : LayerFns) (s : RState) (gy : Mat) :
    (Backward L s gy).2 =
      (if s.backwardStep < s.rho - 1 then
         L.inputB s.inputOutput
           (L.transferB s.transferOutput
             (if s.recurrentError = [] then gy else madd s.recurrentError gy))
       else
         L.inputB s.inputOutput
           (L.startB s.startOutput
             (L.transferB s.transferOutput
               (if s.recurrentError = [] then gy
                else madd s.recurrentError gy)))) ∧
    (Backward L s gy).1.recurrentDelta =
      (if s.backwardStep < s.rho - 1 then
         L.transferB s.transferOutput
           (if s.recurrentError = [] then gy else madd s.recurrentError gy)
       else s.recurrentDelta) ∧
    (Backward L s gy).1.feedbackDelta =
      (if s.backwardStep < s.rho - 1 then
         L.feedbackB s.feedbackOutput
           (L.transferB s.transferOutput
             (if s.recurrentError = [] then gy else madd s.recurrentError gy))
       else s.feedbackDelta) := by
  unfold Backward recurrentBackward initialBackward
  by_cases hb : s.backwardStep < s.rho - 1 <;>
    by_cases he : s.recurrentError = [] <;> simp [hb, he]

/-- C5: on entry a Backward call sets `recurrentError` to `gy` when the
accumulator is empty and adds `gy` into it otherwise, and on exit
`recurrentError` equals the Feedback delta slot: the delta just computed
by Feedback's backward pass in the `backwardStep < rho - 1` branch, and
the slot's previous content in the boundary branch, so the next Backward
call sums its `gy` into that carried delta. -/
theorem backward_error_carry (L : LayerFns) (s : RState) (gy : Mat) :
    (Backward L s gy).1.recurrentError = (Backward L s gy).1.feedbackDelta ∧
    (Backward L s gy).1.recurrentError =
      (if s.backwardStep < s.rho - 1 then
         L.feedbackB s.feedbackOutput
           (L.transferB s.transferOutput
             (if s.recurrentError = [] then gy else madd s.recurrentError gy))
       else s.feedbackDelta) := by
  unfold Backward recurrentBackward initialBackward
  by_cases hb : s.backwardStep < s.rho - 1 <;>
    by_cases he : s.recurrentError = [] <;> simp [hb, he]

/-- C6: every Gradient call in the `gradientStep < rho - 1` branch
accumulates Feedback's gradient computed from the historical saved output
at index `size - 2 - gradientStep` of `feedbackOutputParameter` (`size`
being the buffer's current length, here large enough for the index to be
a valid position) together with Merge's delta. -/
theorem gradient_history_semantics (L : LayerFns) (s : RState)
    (input error : Mat) (h : s.gradientStep < s.rho - 1)
    (hb : 2 + s.gradientStep ≤ s.feedbackOutputParameter.length) :
    (Gradient L s input error).feedbackGrad =
      gaccum s.feedbackGrad
        (L.feedbackG
          (s.feedbackOutputParameter.getD
            (s.feedbackOutputParameter.length - 2 - s.gradientStep) [])
          s.mergeDelta) := by
  have hge : (0 : Int) ≤ (s.feedbackOutputParameter.length : Int) - 2
      - (s.gradientStep : Int) := by omega
  have htn : ((s.feedbackOutputParameter.length : Int) - 2
      - (s.gradientStep : Int)).toNat
      = s.feedbackOutputParameter.length - 2 - s.gradientStep := by omega
  unfold Gradient
  rw [if_pos h]
  by_cases hw : s.gradientStep + 1 = s.rho <;>
    simp [hw, histAccess, histIndex, hge, htn]

/-- State with a two-element feedback history, used to evaluate the
historical gradient access at a concrete input. -/
def histState : RState :=
  { fresh 2 false with feedbackOutputParameter := [[5], [7]], mergeDelta := [3] }

theorem gradient_history_semantics_witness :
    (Gradient idLayerFns histState [1] [1]).feedbackGrad =
      gaccum histState.feedbackGrad
        (idLayerFns.feedbackG
          (histState.feedbackOutputParameter.getD
            (histState.feedbackOutputParameter.length - 2
              - histState.gradientStep) [])
          histState.mergeDelta) :=
  gradient_history_semantics idLayerFns histState [1] [1]
    (by decide) (by decide)

/-- C7: every Gradient call at the window boundary
(`gradientStep = rho - 1`) zeroes the gradient accumulators of the
Recurrent-body, Input and Feedback modules and accumulates only Initial's
gradient, computed from the input and Start's delta; no Recurrent-body,
Input or Feedback contribution is accumulated at that call. -/
theorem gradient_boundary_zero (L : LayerFns) (s : RState)
    (input error : Mat) (hR : 0 < s.rho) (h : s.gradientStep = s.rho - 1) :
    (Gradient L s input error).recurrentGrad = zerosLike s.recurrentGrad ∧
    (Gradient L s input error).inputGrad = zerosLike s.inputGrad ∧
    (Gradient L s input error).feedbackGrad = zerosLike s.feedbackGrad ∧
    (Gradient L s input error).initialGrad =
      gaccum s.initialGrad (L.initialG input s.startDelta) := by
  have hcond : ¬ (s.gradientStep < s.rho - 1) := by omega
  unfold Gradient
  rw [if_neg hcond]
  by_cases hw : s.gradientStep + 1 = s.rho <;> simp [hw]

/-- State at a `rho = 1` window boundary with nonempty accumulators, used
to evaluate the boundary zeroing at a concrete input. -/
def boundaryState : RState :=
  { fresh 1 false with
      recurrentGrad := [4], inputGrad := [6],
      feedbackGrad := [9], startDelta := [2] }

theorem gradient_boundary_zero_witness :
    (Gradient idLayerFns boundaryState [1] [1]).recurrentGrad
      = zerosLike boundaryState.recurrentGrad ∧
    (Gradient idLayerFns boundaryState [1] [1]).inputGrad
      = zerosLike boundaryState.inputGrad ∧
    (Gradient idLayerFns boundaryState [1] [1]).feedbackGrad
      = zerosLike boundaryState.feedbackGrad ∧
    (Gradient idLayerFns boundaryState [1] [1]).initialGrad
      = gaccum boundaryState.initialGrad
          (idLayerFns.initialG [1] boundaryState.startDelta) :=
  gradient_boundary_zero idLayerFns boundaryState [1] [1]
    (by decide) (by decide)

/-- C8: under the documented pattern, within an open window in training
mode the history buffer `feedbackOutputParameter` holds exactly as many
elements as Forward calls made in that window; in inference mode
(`deterministic = true`) it stays empty; after the forward phase it holds
`R` elements and it is cleared exactly when `gradientStep` wraps at the
`R`-th Gradient call. -/
theorem feedback_history_length (L : LayerFns) (R : Nat) (det : Bool)
    (ws : List WindowData) (w : WindowData)
    (hR : 0 < R) (hws : ∀ u ∈ ws, WindowData.complete R u) :
    (w.xs.length ≤ R →
      (forwards L (runWindows L (fresh R det) ws)
          w.xs).feedbackOutputParameter.length
        = if det then 0 else w.xs.length) ∧
    (w.xs.length = R → w.gys.length ≤ R →
      (backwards L (forwards L (runWindows L (fresh R det) ws) w.xs)
          w.gys).feedbackOutputParameter.length
        = if det then 0 else R) ∧
    (w.xs.length = R → w.gys.length = R → w.ies.length ≤ R →
      (gradients L (backwards L (forwards L (runWindows L (fresh R det) ws)
          w.xs) w.gys) w.ies).feedbackOutputParameter.length
        = if det then 0 else if w.ies.length = R then 0 else R) := by
  obtain ⟨m1, m2, m3, m4, m5, m6⟩ :=
    runWindows_inv L R ws (fresh R det) hws hR rfl rfl rfl (Nat.zero_le R) rfl
  set base := runWindows L (fresh R det) ws with hbase
  have hdet : base.deterministic = det := by rw [m2]; rfl
  refine ⟨?_, ?_, ?_⟩
  · intro hx
    by_cases hfull : w.xs.length = R
    · obtain ⟨_, _, _, _, _, _, f7⟩ := forwards_wrap L w.xs base
        (by omega) (by rw [m3, m1]; omega)
      rw [f7, hdet, m6]
      cases det <;> simp
    · obtain ⟨_, _, _, _, _, _, f7⟩ := forwards_no_wrap L w.xs base
        (by rw [m3, m1]; omega)
      rw [f7, hdet, m6]
      cases det <;> simp
  · intro hx hg
    obtain ⟨_, _, _, _, _, _, f7⟩ := forwards_wrap L w.xs base
      (by omega) (by rw [m3, m1]; omega)
    obtain ⟨_, _, _, _, _, b6⟩ := backwards_phase L w.gys (forwards L base w.xs)
    rw [b6, f7, hdet, m6, hx]
    cases det <;> simp
  · intro hx hg hi
    obtain ⟨f1, _, f3, _, _, _, f7⟩ := forwards_wrap L w.xs base
      (by omega) (by rw [m3, m1]; omega)
    obtain ⟨b1, _, _, b4, _, b6⟩ :=
      backwards_phase L w.gys (forwards L base w.xs)
    set s2 := backwards L (forwards L base w.xs) w.gys with hs2
    by_cases hfull : w.ies.length = R
    · obtain ⟨_, _, _, _, _, g6⟩ := gradients_wrap L w.ies s2
        (by omega) (by rw [b4, f3, m4, b1, f1, m1]; omega)
      rw [g6, hfull]
      cases det <;> simp
    · obtain ⟨_, _, _, _, _, g6⟩ := gradients_no_wrap L w.ies s2
        (by rw [b4, f3, m4, b1, f1, m1]; omega)
      rw [g6, b6, f7, hdet, m6, hx]
      cases det <;> simp [hfull]

/-- Call data of one complete `rho = 2` window used to evaluate the
history-length characterization at concrete inputs. -/
def histWindow : WindowData :=
  { xs := [[1], [2]], gys := [[1], [1]], ies := [([1], [1]), ([2], [1])] }

theorem feedback_history_length_witness :
    (histWindow.xs.length ≤ 2 →
      (forwards idLayerFns (runWindows idLayerFns (fresh 2 false) [])
          histWindow.xs).feedbackOutputParameter.length
        = if false then 0 else histWindow.xs.length) ∧
    (histWindow.xs.length = 2 → histWindow.gys.length ≤ 2 →
      (backwards idLayerFns (forwards idLayerFns
          (runWindows idLayerFns (fresh 2 false) []) histWindow.xs)
          histWindow.gys).feedbackOutputParameter.length
        = if false then 0 else 2) ∧
    (histWindow.xs.length = 2 → histWindow.gys.length = 2 →
      histWindow.ies.length ≤ 2 →
      (gradients idLayerFns (backwards idLayerFns (forwards idLayerFns
          (runWindows idLayerFns (fresh 2 false) []) histWindow.xs)
          histWindow.gys) histWindow.ies).feedbackOutputParameter.length
        = if false then 0 else if histWindow.ies.length = 2 then 0 else 2) :=
  feedback_history_length idLayerFns 2 false [] histWindow (by decide)
    (by intro u hu; simp at hu)

/-- C9: the module wiring executed on the loading path of `serialize` is
exactly the sequence of construction steps of the value constructor, in
the same order, so the wiring structure it rebuilds is identical to a
freshly constructed one. -/
theorem serialize_rebuild_eq_constructor :
    serializeLoadWiring = constructorWiring ∧
    buildResult serializeLoadWiring = buildResult constructorWiring := by
  constructor <;> decide

/-- State reached in the gradient phase of a window in training mode:
`ws` complete windows, then the forward and backward phases of the next
window, then `ies` of its Gradient calls. -/
def gradPhaseState (L : LayerFns) (R : Nat) (ws : List WindowData)
    (xs gys : List Mat) (ies : List (Mat × Mat)) : RState :=
  gradients L
    (backwards L (forwards L (runWindows L (fresh R false) ws) xs) gys) ies

/-- C10: in training mode with `rho = R ≥ 2`, at every Gradient call of
the documented pattern taken in the `gradientStep < rho - 1` branch the
history buffer holds exactly `R` elements and the accessed index
`R - 2 - gradientStep` is in bounds, lying in `[0, R - 2]`. -/
theorem gradient_access_in_range (L : LayerFns) (R : Nat)
    (ws : List WindowData) (xs gys : List Mat) (ies : List (Mat × Mat))
    (hR : 2 ≤ R) (hws : ∀ u ∈ ws, WindowData.complete R u)
    (hx : xs.length = R) (hg : gys.length = R) (hm : ies.length < R - 1) :
    (gradPhaseState L R ws xs gys ies).gradientStep = ies.length ∧
    (gradPhaseState L R ws xs gys ies).gradientStep
      < (gradPhaseState L R ws xs gys ies).rho - 1 ∧
    (gradPhaseState L R ws xs gys ies).feedbackOutputParameter.length = R ∧
    histIndex (gradPhaseState L R ws xs gys ies)
      = (R : Int) - 2 - (ies.length : Int) ∧
    0 ≤ histIndex (gradPhaseState L R ws xs gys ies) ∧
    histIndex (gradPhaseState L R ws xs gys ies)
      < ((gradPhaseState L R ws xs gys
          ies).feedbackOutputParameter.length : Int) ∧
    histIndex (gradPhaseState L R ws xs gys ies) ≤ (R : Int) - 2 := by
  obtain ⟨m1, m2, m3, m4, m5, m6⟩ :=
    runWindows_inv L R ws (fresh R false) hws (by omega) rfl rfl rfl
      (Nat.zero_le R) rfl
  set base := runWindows L (fresh R false) ws with hbase
  have hdet : base.deterministic = false := by rw [m2]; rfl
  obtain ⟨f1, _, f3, _, _, _, f7⟩ := forwards_wrap L xs base
    (by omega) (by rw [m3, m1]; omega)
  obtain ⟨b1, _, _, b4, _, b6⟩ := backwards_phase L gys (forwards L base xs)
  set s2 := backwards L (forwards L base xs) gys with hs2
  obtain ⟨g1, _, _, _, g5, g6⟩ := gradients_no_wrap L ies s2
    (by rw [b4, f3, m4, b1, f1, m1]; omega)
  have hrun : gradPhaseState L R ws xs gys ies = gradients L s2 ies := rfl
  have hG : (gradPhaseState L R ws xs gys ies).gradientStep = ies.length := by
    rw [hrun, g5, b4, f3, m4]; omega
  have hRho : (gradPhaseState L R ws xs gys ies).rho = R := by
    rw [hrun, g1, b1, f1, m1]
  have hL : (gradPhaseState L R ws xs gys
      ies).feedbackOutputParameter.length = R := by
    rw [hrun, g6, b6, f7, hdet, m6, hx]
    simp
  refine ⟨hG, by rw [hG, hRho]; omega, hL, ?_, ?_, ?_, ?_⟩ <;>
    unfold histIndex <;> rw [hL, hG] <;> omega

theorem gradient_access_in_range_witness :
    (gradPhaseState idLayerFns 2 [] [[1], [2]] [[1], [1]] []).gradientStep
      = ([] : List (Mat × Mat)).length ∧
    (gradPhaseState idLayerFns 2 [] [[1], [2]] [[1], [1]] []).gradientStep
      < (gradPhaseState idLayerFns 2 [] [[1], [2]] [[1], [1]] []).rho - 1 ∧
    (gradPhaseState idLayerFns 2 [] [[1], [2]] [[1], [1]]
        []).feedbackOutputParameter.length = 2 ∧
    histIndex (gradPhaseState idLayerFns 2 [] [[1], [2]] [[1], [1]] [])
      = (2 : Int) - 2 - (([] : List (Mat × Mat)).length : Int) ∧
    0 ≤ histIndex (gradPhaseState idLayerFns 2 [] [[1], [2]] [[1], [1]] []) ∧
    histIndex (gradPhaseState idLayerFns 2 [] [[1], [2]] [[1], [1]] [])
      < ((gradPhaseState idLayerFns 2 [] [[1], [2]] [[1], [1]]
          []).feedbackOutputParameter.length : Int) ∧
    histIndex (gradPhaseState idLayerFns 2 [] [[1], [2]] [[1], [1]] [])
      ≤ (2 : Int) - 2 :=
  gradient_access_in_range idLayerFns 2 [] [[1], [2]] [[1], [1]] []
    (by decide) (by intro u hu; simp at hu) (by decide) (by decide) (by decide)

end Mlpack
